import Mathlib

/-
Verification development for the korea-food-lists map-building pipeline
(`build_map_list.py`, `bluer_probe.py`).

The Python source is shallowly embedded: dataclasses become structures,
`float` coordinates become `Rat` (no claim does float arithmetic; only
presence/comparison of coordinates matters), JSON values become an
inductive type, Python `None`/truthiness is modelled explicitly, and
functions that can raise return `Option` (with `none` for the raised
path).  HTTP traffic is modelled by response oracles (functions from the
request position or URL to the simulated response), matching the claims'
"for every sequence of simulated responses" quantifiers.
-/

set_option maxHeartbeats 1000000

/-! ## Python-value helpers -/

/-- Truthiness of an optional string under Python rules: `None` and `""`
are falsy, every other string is truthy. -/
def pyTruthyStr : Option String → Bool
  | none => false
  | some s => !(s == "")

/-- Python `str.strip()` (ASCII whitespace; Python additionally strips
some rarer unicode whitespace, which no claim exercises).  Implemented
over character lists because `String.trim` does not reduce in the
kernel. -/
def pyStrip (s : String) : String :=
  String.mk (((s.toList.dropWhile Char.isWhitespace).reverse.dropWhile
    Char.isWhitespace).reverse)

/-- Python `str.startswith(pre)`. -/
def pyStartsWith (s pre : String) : Bool :=
  List.isPrefixOf pre.toList s.toList

/-! ## Data model: the `Place` dataclass (build_map_list.py lines 39-56) -/

structure Place where
  source : String
  name : String
  address : Option String
  city : Option String
  country : Option String
  category : Option String
  cuisine : Option String
  price : Option String
  phone : Option String
  url : Option String
  year : Option String
  latitude : Option Rat
  longitude : Option Rat
  captured_at : String
  kakao_id : Option String := none
  kakao_url : Option String := none
deriving DecidableEq, Repr

/-! ## slugify and normalize_key (build_map_list.py lines 288-291)

`normalize_key` calls the third-party `python-slugify` library with
`lowercase=True`.  That library first deletes apostrophes, then replaces
every maximal run of non-alphanumeric characters by a single `-` and
lowercases, dropping leading/trailing separators.  We model that for
ASCII input (the library additionally transliterates non-ASCII letters,
which no claim exercises; non-ASCII characters are treated as
separators here). -/

def apostropheChar : Char := Char.ofNat 39

/-- Split a character list into maximal alphanumeric words, lowercased.
The first argument accumulates the current word in reverse. -/
def slugWordsAux : List Char → List Char → List (List Char)
  | acc, [] => if acc.isEmpty then [] else [acc.reverse]
  | acc, c :: cs =>
    if c.isAlphanum then slugWordsAux (c.toLower :: acc) cs
    else (if acc.isEmpty then [] else [acc.reverse]) ++ slugWordsAux [] cs

def slugify (s : String) : String :=
  let cs := s.toList.filter (fun c => !(c == apostropheChar))
  String.intercalate "-" ((slugWordsAux [] cs).map fun w => String.mk w)

/-- `normalize_key(name, address)` from build_map_list.py lines 288-291. -/
def normalize_key (name : String) (address : Option String) : String :=
  let n := slugify name
  let a := slugify (address.getD "")
  if a == "" then n else n ++ "__" ++ a

def placeKey (p : Place) : String := normalize_key p.name p.address

/-! ## merge_places (build_map_list.py lines 294-318)

The Python function folds every record into an insertion-ordered dict
keyed by `normalize_key`; we model the dict as an association list in
insertion order (updating a key keeps its position, as in Python), and
`list(merged.values())` as mapping `Prod.snd`. -/

/-- The tie-break body of `merge_places` run when `key` is already in
`merged` (lines 302-317): `better` starts as the existing record and is
replaced by the incoming record `p` by each of the three preference
checks in turn. -/
def mergeStep (cur p : Place) : Place :=
  let better1 := if !pyTruthyStr cur.address && pyTruthyStr p.address then p else cur
  let better2 :=
    if (better1.latitude.isNone || better1.longitude.isNone)
        && (p.latitude.isSome && p.longitude.isSome) then p else better1
  if !pyTruthyStr better2.url && pyTruthyStr p.url then p else better2

/-- One iteration of the inner loop of `merge_places`: fold `p` into the
insertion-ordered map `m`. -/
def insertPlace (m : List (String × Place)) (p : Place) : List (String × Place) :=
  if m.any (fun kv => kv.1 == placeKey p) then
    m.map (fun kv => if kv.1 == placeKey p then (kv.1, mergeStep kv.2 p) else kv)
  else
    m ++ [(placeKey p, p)]

/-- `merge_places(*lists)` (build_map_list.py lines 294-318); the varargs
are modelled as a list of lists. -/
def merge_places (lists : List (List Place)) : List Place :=
  (lists.flatten.foldl insertPlace []).map Prod.snd

example : slugify "Kim's" = "kims" := by decide
example : slugify "12 Main St" = "12-main-st" := by decide
example : normalize_key "Kim's" (some "") = "kims" := by decide
example : normalize_key "Kim's" (some "12 Main St") = "kims__12-main-st" := by decide

/-! ## JSON values

Python JSON objects are modelled as association lists in key order
(Python dicts are insertion-ordered with unique keys; the embedding is
also well-defined on duplicate keys, where lookup takes the first). -/

inductive JsonVal where
  | jnull
  | jbool (b : Bool)
  | jint (n : Int)
  | jnum (q : Rat)
  | jstr (s : String)
  | jarr (xs : List JsonVal)
  | jobj (kvs : List (String × JsonVal))
deriving Repr, BEq

/-- Python truthiness of a JSON value. -/
def jTruthy : JsonVal → Bool
  | .jnull => false
  | .jbool b => b
  | .jint n => !(n == 0)
  | .jnum q => !(q == 0)
  | .jstr s => !(s == "")
  | .jarr xs => !xs.isEmpty
  | .jobj kvs => !kvs.isEmpty

/-- Collapse a JSON `null` value to `none`: both a missing key and a
`null` value are Python `None` to the code under study. -/
def pyVal : Option JsonVal → Option JsonVal
  | some .jnull => none
  | o => o

/-- `d.get(k)` on a Python dict holding JSON data, with `null` collapsed
to `None`. -/
def jget (d : List (String × JsonVal)) (k : String) : Option JsonVal :=
  pyVal (List.lookup k d)

/-- Python `x or y` on optional JSON values (`none` is Python `None`). -/
def pyOrJ (a b : Option JsonVal) : Option JsonVal :=
  match a with
  | some v => if jTruthy v then some v else b
  | none => b

/-! ## HTTP responses and the retry loops

A simulated HTTP exchange: `status`, the `Retry-After` header if any,
and the parsed JSON body.  (The embedding assumes the body parses; a
JSON parse error would raise, a path no claim exercises.)
`requests.Response.raise_for_status` raises exactly when
`400 <= status < 600`; the statuses in scope are below 600, so it is
modelled as `400 <= status`. -/

structure HttpResp where
  status : Nat
  retryAfter : Option String
  body : JsonVal

inductive BluerResult where
  | success (doc : List (String × JsonVal))
  | httpError (status : Nat)
  | typeError
deriving Repr, BEq

/-- The backoff wait computed on the exponential path of `bluer_get_json`
(build_map_list.py line 950): `min(120.0, 2.0 ** min(attempt, 6) +
random.uniform(0.0, 1.0))`, with the jitter draw passed in explicitly. -/
def bluer_wait (attempt : Nat) (jitter : Rat) : Rat :=
  min 120 ((2 : Rat) ^ min attempt 6 + jitter)

/-- The backoff wait computed on the exponential path of the retry loop
in `collect_restaurants_hal` (bluer_probe.py line 183):
`min(60.0, 2.0 ** attempt)` (no jitter). -/
def hal_wait (attempt : Nat) : Rat :=
  min 60 ((2 : Rat) ^ attempt)

/-- The `while True` loop of `bluer_get_json` (build_map_list.py lines
928-963), with the GET of attempt `a` answered by `resp a` (1-indexed)
and the sleeps dropped (the wait on the exponential path is the
`bluer_wait` formula above; it does not influence control flow).
Returns the outcome together with the number of GET requests issued. -/
def bluer_get_json_go (resp : Nat → HttpResp) (maxAttempts : Nat) (attempt : Nat) :
    BluerResult × Nat :=
  let a := attempt + 1
  let r := resp a
  if r.status == 429 || r.status == 503 then
    if maxAttempts ≤ a then (.httpError r.status, a)
    else bluer_get_json_go resp maxAttempts a
  else if 400 ≤ r.status then (.httpError r.status, a)
  else
    match r.body with
    | .jobj kvs => (.success kvs, a)
    | _ => (.typeError, a)
termination_by maxAttempts - attempt
decreasing_by omega

/-- `bluer_get_json(s, url, sleep_s, max_attempts)` for a fixed URL,
against the simulated response sequence `resp`. -/
def bluer_get_json (resp : Nat → HttpResp) (maxAttempts : Nat) : BluerResult × Nat :=
  bluer_get_json_go resp maxAttempts 0

inductive HalFetch where
  | gotDoc (body : JsonVal)
  | raised (status : Nat)
  | exhausted
deriving Repr, BEq

/-- The inner `while attempt < 6` retry loop of `collect_restaurants_hal`
(bluer_probe.py lines 172-194) for one page URL, with the GET of attempt
`a` answered by `resp a` (1-indexed).  `exhausted` models falling out of
the loop with `doc is None` and raising `requests.HTTPError`; `raised`
models `raise_for_status` on a non-429 error status.  Returns the
outcome together with the number of GET requests issued. -/
def hal_retry_go (resp : Nat → HttpResp) (attempt : Nat) : HalFetch × Nat :=
  if h : attempt < 6 then
    let a := attempt + 1
    let r := resp a
    if r.status == 429 then hal_retry_go resp a
    else if 400 ≤ r.status then (.raised r.status, a)
    else (.gotDoc r.body, a)
  else (.exhausted, attempt)
termination_by 6 - attempt
decreasing_by omega

def hal_retry (resp : Nat → HttpResp) : HalFetch × Nat :=
  hal_retry_go resp 0

/-! ## Properties of merge_places -/

/-- The sequential tie-break of `merge_places` collapses to a single
choice: the incoming record replaces the existing one exactly when one
of the three preference conditions fires against the existing record. -/
theorem mergeStep_eq (cur p : Place) :
    mergeStep cur p =
      if (!pyTruthyStr cur.address && pyTruthyStr p.address)
          || ((cur.latitude.isNone || cur.longitude.isNone)
              && (p.latitude.isSome && p.longitude.isSome))
          || (!pyTruthyStr cur.url && pyTruthyStr p.url) then p else cur := by
  unfold mergeStep
  by_cases h1 : (!pyTruthyStr cur.address && pyTruthyStr p.address) = true
  · have hlat : ((p.latitude.isNone || p.longitude.isNone)
        && (p.latitude.isSome && p.longitude.isSome)) = false := by
      cases p.latitude <;> cases p.longitude <;> rfl
    have hurl : (!pyTruthyStr p.url && pyTruthyStr p.url) = false := by
      cases pyTruthyStr p.url <;> rfl
    simp [h1, hlat, hurl]
  · have h1' : (!pyTruthyStr cur.address && pyTruthyStr p.address) = false := by
      revert h1; cases (!pyTruthyStr cur.address && pyTruthyStr p.address) <;> simp
    by_cases h2 : ((cur.latitude.isNone || cur.longitude.isNone)
        && (p.latitude.isSome && p.longitude.isSome)) = true
    · have hurl : (!pyTruthyStr p.url && pyTruthyStr p.url) = false := by
        cases pyTruthyStr p.url <;> rfl
      simp [h1', h2, hurl]
    · have h2' : ((cur.latitude.isNone || cur.longitude.isNone)
          && (p.latitude.isSome && p.longitude.isSome)) = false := by
        revert h2
        cases ((cur.latitude.isNone || cur.longitude.isNone)
          && (p.latitude.isSome && p.longitude.isSome)) <;> simp
      simp [h1', h2']

theorem mergeStep_self (p : Place) : mergeStep p p = p := by
  rw [mergeStep_eq]
  have h1 : (!pyTruthyStr p.address && pyTruthyStr p.address) = false := by
    cases pyTruthyStr p.address <;> rfl
  have h2 : ((p.latitude.isNone || p.longitude.isNone)
      && (p.latitude.isSome && p.longitude.isSome)) = false := by
    cases p.latitude <;> cases p.longitude <;> rfl
  have h3 : (!pyTruthyStr p.url && pyTruthyStr p.url) = false := by
    cases pyTruthyStr p.url <;> rfl
  simp [h1, h2, h3]

theorem mergeStep_choice (cur p : Place) : mergeStep cur p = cur ∨ mergeStep cur p = p := by
  rw [mergeStep_eq]; split
  · exact Or.inr rfl
  · exact Or.inl rfl

/-- Invariant of the merge dict: keys are pairwise distinct and every
entry's key is the `normalize_key` of its record. -/
def PlaceInv (m : List (String × Place)) : Prop :=
  (m.map Prod.fst).Nodup ∧ ∀ kv ∈ m, kv.1 = placeKey kv.2

theorem insertPlace_inv (m : List (String × Place)) (p : Place) (h : PlaceInv m) :
    PlaceInv (insertPlace m p) := by
  obtain ⟨hnd, hkc⟩ := h
  unfold insertPlace
  by_cases hmem : (m.any fun kv => kv.1 == placeKey p) = true
  · simp only [hmem, if_true]
    constructor
    · have : (m.map (fun kv => if kv.1 == placeKey p then (kv.1, mergeStep kv.2 p) else kv)).map
          Prod.fst = m.map Prod.fst := by
        rw [List.map_map]
        apply List.map_congr_left
        intro kv _
        simp only [Function.comp_apply]
        split <;> rfl
      rw [this]; exact hnd
    · intro kv' hkv'
      obtain ⟨kv, hkv, hf⟩ := List.mem_map.mp hkv'
      by_cases hk : (kv.1 == placeKey p) = true
    
      · subst hf
        simp only [hk, if_true]
        rcases mergeStep_choice kv.2 p with hc | hc
        · rw [hc]; exact hkc kv hkv
        · rw [hc]; exact beq_iff_eq.mp hk
      · subst hf
        simp only [hk, if_false, Bool.false_eq_true]
        exact hkc kv hkv
  · simp only [hmem, if_false, Bool.false_eq_true]
    have hfresh : placeKey p ∉ m.map Prod.fst := by
      intro hin
      obtain ⟨kv, hkv, hfst⟩ := List.mem_map.mp hin
      have : (m.any fun kv => kv.1 == placeKey p) = true :=
        List.any_eq_true.mpr ⟨kv, hkv, by simp [hfst]⟩
      exact hmem this
    constructor
    · rw [List.map_append]
      rw [List.nodup_append]
      refine ⟨hnd, by simp, ?_⟩
      intro a ha hb
      simp at hb
      subst hb
      exact hfresh ha
    · intro kv hkv
      rcases List.mem_append.mp hkv with hl | hr
      · exact hkc kv hl
      · simp at hr; subst hr; rfl

theorem foldl_insert_inv (l : List Place) :
    ∀ m, PlaceInv m → PlaceInv (l.foldl insertPlace m) := by
  induction l with
  | nil => intro m h; exact h
  | cons p rest ih =>
    intro m h
    exact ih (insertPlace m p) (insertPlace_inv m p h)

theorem foldl_insert_fresh :
    ∀ (m acc : List (String × Place)),
      (∀ kv ∈ m, kv.1 = placeKey kv.2) →
      (((acc ++ m).map Prod.fst)).Nodup →
      List.foldl insertPlace acc (m.map Prod.snd) = acc ++ m := by
  intro m
  induction m with
  | nil => intro acc _ _; simp
  | cons kv m' ih =>
    intro acc hkc hnd
    obtain ⟨k, q⟩ := kv
    have hk : k = placeKey q := hkc (k, q) (List.mem_cons_self _ _)
    have hfresh : k ∉ acc.map Prod.fst := by
      intro hin
      have : ¬ ((acc ++ (k, q) :: m').map Prod.fst).Nodup := by
        rw [List.map_append]
        intro hnd'
        have hdisj := (List.nodup_append.mp hnd').2.2
        exact hdisj hin (by simp)
      exact this hnd
    have hins : insertPlace acc q = acc ++ [(k, q)] := by
      unfold insertPlace
      have hany : (acc.any fun kv => kv.1 == placeKey q) = false := by
        rw [List.any_eq_false]
        intro kv hkv
        simp only [beq_iff_eq]
        intro heq
        apply hfresh
        rw [hk, ← heq]
        exact List.mem_map_of_mem Prod.fst hkv
      rw [if_neg (by rw [hany]; exact Bool.false_ne_true), ← hk]
    simp only [List.map_cons, List.foldl_cons, hins]
    have := ih (acc ++ [(k, q)]) (fun kv hkv => hkc kv (List.mem_cons_of_mem _ hkv))
      (by rw [List.append_assoc]; simpa using hnd)
    rw [this, List.append_assoc]
    simp

theorem mapUpdate_id :
    ∀ (acc : List (String × Place)) (k : String) (p : Place),
      ((acc.map Prod.fst)).Nodup → (k, p) ∈ acc →
      acc.map (fun kv => if kv.1 == k then (kv.1, mergeStep kv.2 p) else kv) = acc := by
  intro acc
  induction acc with
  | nil => intro k p _ hmem; cases hmem
  | cons kv0 tail ih =>
    intro k p hnd hmem
    obtain ⟨k0, q0⟩ := kv0
    have hnd' : ((tail.map Prod.fst)).Nodup := (List.nodup_cons.mp hnd).2
    have hk0 : k0 ∉ tail.map Prod.fst := (List.nodup_cons.mp hnd).1
    rcases List.mem_cons.mp hmem with hhead | htail
    · have hk : k0 = k := by
        have := congrArg Prod.fst hhead.symm; exact this
      have hq : q0 = p := by
        have := congrArg Prod.snd hhead.symm; exact this
      subst hk; subst hq
      simp only [List.map_cons, beq_self_eq_true, if_true, mergeStep_self]
      have htail_id : tail.map (fun kv => if kv.1 == k0 then (kv.1, mergeStep kv.2 q0) else kv)
          = tail := by
        have : ∀ kv ∈ tail, (if kv.1 == k0 then (kv.1, mergeStep kv.2 q0) else kv) = kv := by
          intro kv hkv
          have : kv.1 ≠ k0 := by
            intro heq
            exact hk0 (heq ▸ List.mem_map_of_mem Prod.fst hkv)
          simp [this]
        rw [List.map_congr_left this]
        simp
      rw [htail_id]
    · have hne : k0 ≠ k := by
        intro heq
        subst heq
        exact hk0 (List.mem_map_of_mem Prod.fst htail)
      simp only [List.map_cons]
      rw [ih k p hnd' htail]
      have : ((k0, q0).1 == k) = false := by simp [hne]
      simp [this]

theorem foldl_insert_mem :
    ∀ (ps : List Place) (acc : List (String × Place)),
      ((acc.map Prod.fst)).Nodup →
      (∀ p ∈ ps, (placeKey p, p) ∈ acc) →
      List.foldl insertPlace acc ps = acc := by
  intro ps
  induction ps with
  | nil => intro acc _ _; rfl
  | cons p rest ih =>
    intro acc hnd hmem
    have hp : (placeKey p, p) ∈ acc := hmem p (List.mem_cons_self _ _)
    have hins : insertPlace acc p = acc := by
      unfold insertPlace
      have hany : (acc.any fun kv => kv.1 == placeKey p) = true :=
        List.any_eq_true.mpr ⟨(placeKey p, p), hp, by simp⟩
      rw [if_pos hany]
      exact mapUpdate_id acc (placeKey p) p hnd hp
    simp only [List.foldl_cons, hins]
    exact ih acc hnd (fun q hq => hmem q (List.mem_cons_of_mem _ hq))

/-! ## Claims about merge_places -/

/-- Claim C1: in `merge_places`, when two `Place` records fold to the same
merge key, the existing record is kept unless the incoming record
supplies a non-empty address where the existing one has none, or
supplies both latitude and longitude where the existing one does not
have both, or supplies a URL where the existing one has none; in each
such case the whole incoming record replaces the existing one. -/
theorem C1_merge_tiebreak (cur p : Place)
    (hk : normalize_key cur.name cur.address = normalize_key p.name p.address) :
    merge_places [[cur], [p]] =
      [if (!pyTruthyStr cur.address && pyTruthyStr p.address)
          || ((cur.latitude.isNone || cur.longitude.isNone)
              && (p.latitude.isSome && p.longitude.isSome))
          || (!pyTruthyStr cur.url && pyTruthyStr p.url) then p else cur] := by
  have hkey : placeKey cur = placeKey p := hk
  have hflat : ([[cur], [p]] : List (List Place)).flatten = [cur, p] := by simp
  unfold merge_places
  rw [hflat]
  simp only [List.foldl_cons, List.foldl_nil]
  have h1 : insertPlace [] cur = [(placeKey cur, cur)] := by
    unfold insertPlace
    rw [if_neg (by simp)]
    rfl
  rw [h1]
  have h2 : insertPlace [(placeKey cur, cur)] p = [(placeKey cur, mergeStep cur p)] := by
    unfold insertPlace
    rw [if_pos (by simp [hkey])]
    simp [hkey]
  rw [h2, mergeStep_eq]
  split <;> rfl

def c1curW : Place :=
  { source := "michelin", name := "Alpha", address := none, city := none, country := none,
    category := none, cuisine := none, price := none, phone := none, url := none,
    year := none, latitude := none, longitude := none, captured_at := "t" }

def c1pW : Place := { c1curW with source := "blueribbon", url := some "http://x" }

theorem C1_merge_tiebreak_witness :
    normalize_key c1curW.name c1curW.address = normalize_key c1pW.name c1pW.address ∧
    merge_places [[c1curW], [c1pW]] =
      [if (!pyTruthyStr c1curW.address && pyTruthyStr c1pW.address)
          || ((c1curW.latitude.isNone || c1curW.longitude.isNone)
              && (c1pW.latitude.isSome && c1pW.longitude.isSome))
          || (!pyTruthyStr c1curW.url && pyTruthyStr c1pW.url) then c1pW else c1curW] :=
  ⟨rfl, C1_merge_tiebreak c1curW c1pW rfl⟩

/-- The two records of the spec's merge example (§8): A has the same name
as B but an empty address; B carries an address and coordinates. -/
def kimA : Place :=
  { source := "b", name := "Kim's", address := some "", city := none, country := none,
    category := none, cuisine := none, price := none, phone := none, url := none,
    year := none, latitude := none, longitude := none, captured_at := "t" }

def kimB : Place :=
  { kimA with
    source := "a"
    address := some "12 Main St"
    latitude := some 1
    longitude := some 2 }

/-- Claim C4 as stated is false: with an empty address the merge key is
just the slug of the name, while a non-empty address is appended to the
key, so the spec's example records fold to two different keys and
`merge_places` returns two records, not one, in either input order. -/
theorem C4_counterexample :
    (merge_places [[kimA], [kimB]]).length = 2 ∧
    (merge_places [[kimB], [kimA]]).length = 2 ∧
    normalize_key kimA.name kimA.address ≠ normalize_key kimB.name kimB.address := by
  decide

/-- Claim C4 amended: the two records of the example map to different
merge keys (empty vs non-empty address), so `merge_places` keeps both
records in either input order; the record carrying B's address
"12 Main St" and coordinates (1,2) is in the output unchanged. -/
theorem C4_merge_example_two_records :
    merge_places [[kimA], [kimB]] = [kimA, kimB] ∧
    merge_places [[kimB], [kimA]] = [kimB, kimA] := by
  decide

/-- Claim C5: `merge_places` is idempotent — for every list `L` that is
itself the output of `merge_places`, merging `L` with itself yields the
same list (here even in the same order). -/
theorem C5_merge_idempotent (ls : List (List Place)) :
    merge_places [merge_places ls, merge_places ls] = merge_places ls := by
  have hinv : PlaceInv (ls.flatten.foldl insertPlace []) :=
    foldl_insert_inv ls.flatten [] ⟨by simp, by intro kv h; cases h⟩
  obtain ⟨hnd, hkc⟩ := hinv
  conv_lhs => rw [merge_places, merge_places]
  conv_rhs => rw [merge_places]
  set m := ls.flatten.foldl insertPlace [] with hm
  have hflat : ([m.map Prod.snd, m.map Prod.snd] : List (List Place)).flatten
      = m.map Prod.snd ++ m.map Prod.snd := by simp
  rw [hflat, List.foldl_append]
  have h1 : List.foldl insertPlace [] (m.map Prod.snd) = m := by
    have := foldl_insert_fresh m [] hkc (by simpa using hnd)
    simpa using this
  rw [h1]
  have h2 : List.foldl insertPlace m (m.map Prod.snd) = m := by
    apply foldl_insert_mem _ _ hnd
    intro p hp
    obtain ⟨kv, hkv, hsnd⟩ := List.mem_map.mp hp
    have hkk := hkc kv hkv
    have : (placeKey p, p) = kv := by
      obtain ⟨k0, q0⟩ := kv
      simp only at hsnd
      subst hsnd
      simp only at hkk
      rw [hkk]
    rw [this]
    exact hkv
  rw [h2]

/-! ## Claims about the retry loops -/

theorem bluer_go_rate (resp : Nat → HttpResp) (maxA : Nat)
    (h : ∀ n, (resp n).status = 429 ∨ (resp n).status = 503) :
    ∀ fuel attempt, maxA - attempt ≤ fuel → attempt < maxA →
      bluer_get_json_go resp maxA attempt = (.httpError (resp maxA).status, maxA) := by
  intro fuel
  induction fuel with
  | zero => intro attempt h1 h2; omega
  | succ n ih =>
    intro attempt h1 h2
    rw [bluer_get_json_go]
    have hst : ((resp (attempt + 1)).status == 429 || (resp (attempt + 1)).status == 503)
        = true := by
      rcases h (attempt + 1) with hs | hs <;> simp [hs]
    simp only [hst, if_true]
    by_cases hend : maxA ≤ attempt + 1
    · have : attempt + 1 = maxA := by omega
      rw [if_pos hend, this]
    · rw [if_neg hend]
      exact ih (attempt + 1) (by omega) (by omega)

theorem hal_go_rate (resp : Nat → HttpResp)
    (h : ∀ n, (resp n).status = 429) :
    ∀ fuel attempt, 6 - attempt ≤ fuel → attempt ≤ 6 →
      hal_retry_go resp attempt = (.exhausted, 6) := by
  intro fuel
  induction fuel with
  | zero =>
    intro attempt h1 h2
    have : attempt = 6 := by omega
    subst this
    rw [hal_retry_go]
    simp
  | succ n ih =>
    intro attempt h1 h2
    rw [hal_retry_go]
    by_cases hlt : attempt < 6
    · rw [dif_pos hlt]
      have hst : ((resp (attempt + 1)).status == 429) = true := by simp [h (attempt + 1)]
      simp only [hst, if_true]
      exact ih (attempt + 1) (by omega) (by omega)
    · have : attempt = 6 := by omega
      subst this
      simp

/-- Claim C2: for every sequence of simulated responses in which the
server keeps returning a rate-limit status (429/503 for
`bluer_get_json`, 429 for the inner loop of `collect_restaurants_hal`),
the fetch makes at most the configured maximum number of attempts
(`max_attempts`, resp. 6) and then raises (outcome `httpError` /
`exhausted`) rather than returning silently. -/
theorem C2_retry_cap (resp resp2 : Nat → HttpResp) (maxA : Nat) (hA : 1 ≤ maxA)
    (h1 : ∀ n, (resp n).status = 429 ∨ (resp n).status = 503)
    (h2 : ∀ n, (resp2 n).status = 429) :
    ((bluer_get_json resp maxA).2 ≤ maxA ∧
      (bluer_get_json resp maxA).1 = .httpError (resp maxA).status) ∧
    ((hal_retry resp2).2 ≤ 6 ∧ (hal_retry resp2).1 = .exhausted) := by
  have hb := bluer_go_rate resp maxA h1 maxA 0 (by omega) (by omega)
  have hh := hal_go_rate resp2 h2 6 0 (by omega) (by omega)
  unfold bluer_get_json hal_retry
  rw [hb, hh]
  exact ⟨⟨le_refl _, rfl⟩, ⟨le_refl _, rfl⟩⟩

def c2resp : Nat → HttpResp := fun _ => ⟨429, none, .jnull⟩

theorem C2_retry_cap_witness :
    ((bluer_get_json c2resp 3).2 ≤ 3 ∧
      (bluer_get_json c2resp 3).1 = .httpError (c2resp 3).status) ∧
    ((hal_retry c2resp).2 ≤ 6 ∧ (hal_retry c2resp).1 = .exhausted) :=
  C2_retry_cap c2resp c2resp 3 (by omega) (fun _ => Or.inl rfl) (fun _ => rfl)

/-- Claim C3 as stated is false: past attempt 6 the exponent of
`bluer_get_json`'s backoff is clamped (`2.0 ** min(attempt, 6)`), so the
base stays at 64 while the jitter is drawn fresh; attempt 7 with jitter
0 waits strictly less than attempt 6 with jitter 0.9, both jitters in
the allowed range [0, 1). -/
theorem C3_counterexample :
    6 < 7 ∧ (0 : Rat) ≤ 9 / 10 ∧ (9 / 10 : Rat) < 1 ∧ (0 : Rat) ≤ 0 ∧ (0 : Rat) < 1 ∧
    bluer_wait 7 0 < bluer_wait 6 (9 / 10) := by
  refine ⟨by norm_num, by norm_num, by norm_num, le_refl 0, by norm_num, ?_⟩
  show min 120 ((2 : Rat) ^ min 7 6 + 0) < min 120 ((2 : Rat) ^ min 6 6 + 9 / 10)
  norm_num

/-- Claim C3 amended: on the exponential-backoff path the wait is
monotonically non-decreasing across attempts only up to the exponent
clamp — for attempts `a < b ≤ 6` the wait of `bluer_get_json` cannot
decrease for any jitter values in [0, 1) (beyond attempt 6 the clamped
base is constant and the jitter can make it decrease, see the
counterexample); the jitter-free wait of `collect_restaurants_hal` is
monotone without restriction. -/
theorem C3_backoff_monotone_amended (a b : Nat) (j1 j2 : Rat)
    (hab : a < b) (hb6 : b ≤ 6) (hj1l : 0 ≤ j1) (hj1u : j1 < 1)
    (hj2l : 0 ≤ j2) (hj2u : j2 < 1) :
    bluer_wait a j1 ≤ bluer_wait b j2 ∧ hal_wait a ≤ hal_wait b := by
  constructor
  · unfold bluer_wait
    have hmina : min a 6 = a := by omega
    have hminb : min b 6 = b := by omega
    rw [hmina, hminb]
    apply min_le_min (le_refl (120 : Rat))
    have hpow : (2 : Rat) ^ (a + 1) ≤ 2 ^ b :=
      pow_le_pow_right₀ (by norm_num) (by omega)
    have hone : (1 : Rat) ≤ 2 ^ a := by
      have := pow_le_pow_right₀ (show (1 : Rat) ≤ 2 by norm_num) (Nat.zero_le a)
      simpa using this
    have hsplit : (2 : Rat) ^ (a + 1) = 2 ^ a * 2 := by ring
    nlinarith
  · unfold hal_wait
    apply min_le_min (le_refl (60 : Rat))
    exact pow_le_pow_right₀ (by norm_num) (le_of_lt hab)

theorem C3_backoff_monotone_amended_witness :
    bluer_wait 1 (1 / 2) ≤ bluer_wait 2 0 ∧ hal_wait 1 ≤ hal_wait 2 :=
  C3_backoff_monotone_amended 1 2 (1 / 2) 0 (by omega) (by omega) (by norm_num)
    (by norm_num) (by norm_num) (by norm_num)

/-! ## HAL pagination (bluer_probe.py lines 126-203, build_map_list.py
lines 992-1073)

`hal_extract_items` is line-identical in the two files and embedded
once.  The URL construction of the first page
(`urlencode(params)`) and the rewriting of next links
(`normalize_bluer_next_url` / `normalize_next_url`, pure string
rewriting) are absorbed into the abstract page-response functions: the
claims quantify over every sequence of page responses, so the
characterisation is independent of how URL strings are spelled. -/

/-- `hal_extract_items(doc)`: pick the first value of `_embedded` that
is a list which is empty or whose first element is a dict, and the
string under `_links.next.href` if present. -/
def hal_extract_items (doc : List (String × JsonVal)) : List JsonVal × Option String :=
  let items : List JsonVal :=
    match List.lookup "_embedded" doc with
    | some (.jobj kvs) =>
      match kvs.find? (fun kv =>
          match kv.2 with
          | .jarr [] => true
          | .jarr (.jobj _ :: _) => true
          | _ => false) with
      | some kv =>
        match kv.2 with
        | .jarr xs => xs
        | _ => []
      | none => []
    | _ => []
  let nextHref : Option String :=
    match List.lookup "_links" doc with
    | some (.jobj ls) =>
      match List.lookup "next" ls with
      | some (.jobj nx) =>
        match List.lookup "href" nx with
        | some (.jstr h) => some h
        | _ => none
      | _ => none
    | _ => none
  (items, nextHref)

/-- The `while next_href and page_num < max_pages` loop of
`collect_bluer_restaurants_zone` (build_map_list.py lines 1034-1044),
with the composite `bluer_get_json(normalize_bluer_next_url(next))`
modelled by the total page-response function `fetch` (a raised fetch
error would abort the collection; the characterisation below is for
successful response sequences). -/
def collect_zone_go (fetch : String → List (String × JsonVal)) (maxPages : Nat)
    (nextHref : Option String) (pageNum : Nat) (acc : List JsonVal) : List JsonVal :=
  match nextHref with
  | none => acc
  | some u =>
    if h : pageNum < maxPages then
      let pr := hal_extract_items (fetch u)
      if pr.1.isEmpty then acc ++ pr.1
      else collect_zone_go fetch maxPages pr.2 (pageNum + 1) (acc ++ pr.1)
    else acc
termination_by maxPages - pageNum
decreasing_by omega

/-- `collect_bluer_restaurants_zone` (build_map_list.py lines
1011-1073): fetch page 1 (given as `firstDoc`), then follow next links. -/
def collect_bluer_restaurants_zone (firstDoc : List (String × JsonVal))
    (fetch : String → List (String × JsonVal)) (maxPages : Nat) : List JsonVal :=
  let pr := hal_extract_items firstDoc
  collect_zone_go fetch maxPages pr.2 1 pr.1

/-- Trace of the pages fetched by the zone loop, in fetch order. -/
def collect_zone_pages (fetch : String → List (String × JsonVal)) (maxPages : Nat)
    (nextHref : Option String) (pageNum : Nat) : List (List JsonVal) :=
  match nextHref with
  | none => []
  | some u =>
    if h : pageNum < maxPages then
      let pr := hal_extract_items (fetch u)
      if pr.1.isEmpty then [pr.1]
      else pr.1 :: collect_zone_pages fetch maxPages pr.2 (pageNum + 1)
    else []
termination_by maxPages - pageNum
decreasing_by omega

/-- Loop-exit state of the zone loop: the pending next link, the number
of pages fetched so far, and whether the exit was the empty-page
`break`. -/
structure ZoneStop where
  finalNext : Option String
  finalPage : Nat
  emptyBreak : Bool
deriving Repr, DecidableEq

def collect_zone_stop (fetch : String → List (String × JsonVal)) (maxPages : Nat)
    (nextHref : Option String) (pageNum : Nat) : ZoneStop :=
  match nextHref with
  | none => ⟨none, pageNum, false⟩
  | some u =>
    if h : pageNum < maxPages then
      let pr := hal_extract_items (fetch u)
      if pr.1.isEmpty then ⟨pr.2, pageNum + 1, true⟩
      else collect_zone_stop fetch maxPages pr.2 (pageNum + 1)
    else ⟨some u, pageNum, false⟩
termination_by maxPages - pageNum
decreasing_by omega

/-- Per-page fetch of `collect_restaurants_hal`: the inner retry loop,
returning the parsed body on success and `none` where the Python code
raises (retry exhaustion or a non-429 error status). -/
def hal_fetch_doc (resp : String → Nat → HttpResp) (u : String) : Option JsonVal :=
  match (hal_retry (resp u)).1 with
  | .gotDoc b => some b
  | _ => none

/-- The `while next_href and page_num < max_pages` loop of
`collect_restaurants_hal` (bluer_probe.py lines 168-201): like the zone
loop but every page fetch can raise (`none`), and a non-dict JSON body
makes `doc.get` raise (`none` as well). -/
def collect_hal_go (hfetch : String → Option JsonVal) (maxPages : Nat)
    (nextHref : Option String) (pageNum : Nat) (acc : List JsonVal) :
    Option (List JsonVal) :=
  match nextHref with
  | none => some acc
  | some u =>
    if h : pageNum < maxPages then
      match hfetch u with
      | none => none
      | some (.jobj kvs) =>
        let pr := hal_extract_items kvs
        if pr.1.isEmpty then some (acc ++ pr.1)
        else collect_hal_go hfetch maxPages pr.2 (pageNum + 1) (acc ++ pr.1)
      | some _ => none
    else some acc
termination_by maxPages - pageNum
decreasing_by omega

/-- `collect_restaurants_hal(s, zone1, max_pages, sleep_s)` with the
first page's parsed body given as `firstDoc` and later GETs answered by
`resp url attempt`. -/
def collect_restaurants_hal (firstDoc : List (String × JsonVal))
    (resp : String → Nat → HttpResp) (maxPages : Nat) : Option (List JsonVal) :=
  let pr := hal_extract_items firstDoc
  collect_hal_go (hal_fetch_doc resp) maxPages pr.2 1 pr.1

/-! ## Properties of the pagination loops -/

theorem zone_go_join (fetch : String → List (String × JsonVal)) (maxPages : Nat) :
    ∀ fuel (nh : Option String) (pn : Nat) (acc : List JsonVal), maxPages - pn ≤ fuel →
      collect_zone_go fetch maxPages nh pn acc
        = acc ++ (collect_zone_pages fetch maxPages nh pn).flatten := by
  intro fuel
  induction fuel with
  | zero =>
    intro nh pn acc h1
    cases nh with
    | none => rw [collect_zone_go, collect_zone_pages]; simp
    | some u =>
      rw [collect_zone_go, collect_zone_pages, dif_neg (by omega), dif_neg (by omega)]
      simp
  | succ n ih =>
    intro nh pn acc h1
    cases nh with
    | none => rw [collect_zone_go, collect_zone_pages]; simp
    | some u =>
      rw [collect_zone_go, collect_zone_pages]
      by_cases hlt : pn < maxPages
      · rw [dif_pos hlt, dif_pos hlt]
        by_cases hemp : (hal_extract_items (fetch u)).1.isEmpty = true
        · rw [if_pos hemp, if_pos hemp]
          simp
        · rw [if_neg hemp, if_neg hemp]
          rw [ih _ (pn + 1) _ (by omega)]
          simp
      · rw [dif_neg hlt, dif_neg hlt]
        simp

theorem zone_stop_props (fetch : String → List (String × JsonVal)) (maxPages : Nat) :
    ∀ fuel (nh : Option String) (pn : Nat), maxPages - pn ≤ fuel → pn ≤ maxPages →
      (collect_zone_stop fetch maxPages nh pn).finalPage
          = pn + (collect_zone_pages fetch maxPages nh pn).length ∧
      (collect_zone_stop fetch maxPages nh pn).finalPage ≤ maxPages ∧
      ((collect_zone_stop fetch maxPages nh pn).finalNext = none ∨
        (collect_zone_stop fetch maxPages nh pn).finalPage = maxPages ∨
        (collect_zone_stop fetch maxPages nh pn).emptyBreak = true) ∧
      (∀ k, k + 1 < (collect_zone_pages fetch maxPages nh pn).length →
        (collect_zone_pages fetch maxPages nh pn).get? k ≠ some []) := by
  intro fuel
  induction fuel with
  | zero =>
    intro nh pn h1 h2
    have hpn : pn = maxPages := by omega
    cases nh with
    | none =>
      rw [collect_zone_stop, collect_zone_pages]
      refine ⟨by simp, by simpa using h2, Or.inl rfl, by intro k hk; simp at hk⟩
    | some u =>
      rw [collect_zone_stop, collect_zone_pages, dif_neg (by omega), dif_neg (by omega)]
      refine ⟨by simp, by simpa using h2, Or.inr (Or.inl hpn), by intro k hk; simp at hk⟩
  | succ n ih =>
    intro nh pn h1 h2
    cases nh with
    | none =>
      rw [collect_zone_stop, collect_zone_pages]
      refine ⟨by simp, by simpa using h2, Or.inl rfl, by intro k hk; simp at hk⟩
    | some u =>
      rw [collect_zone_stop, collect_zone_pages]
      by_cases hlt : pn < maxPages
      · rw [dif_pos hlt, dif_pos hlt]
        by_cases hemp : (hal_extract_items (fetch u)).1.isEmpty = true
        · rw [if_pos hemp, if_pos hemp]
          refine ⟨by simp, by simpa using hlt, Or.inr (Or.inr rfl), ?_⟩
          intro k hk
          simp at hk
        · rw [if_neg hemp, if_neg hemp]
          obtain ⟨ha, hb, hc, hd⟩ := ih (hal_extract_items (fetch u)).2 (pn + 1)
            (by omega) (by omega)
          refine ⟨by rw [ha]; simp; omega, hb, hc, ?_⟩
          intro k hk
          cases k with
          | zero =>
            simp only [List.get?_cons_zero]
            intro hcon
            apply hemp
            rw [Option.some_inj.mp hcon]
            rfl
          | succ k' =>
            simp only [List.get?_cons_succ]
            apply hd
            simp at hk
            omega
      · rw [dif_neg hlt, dif_neg hlt]
        have hpn : pn = maxPages := by omega
        refine ⟨by simp, by simpa using h2, Or.inr (Or.inl hpn), by intro k hk; simp at hk⟩

theorem hal_zone_bridge (hfetch : String → Option JsonVal)
    (fetch : String → List (String × JsonVal)) (maxPages : Nat)
    (hf : ∀ u, hfetch u = some (.jobj (fetch u))) :
    ∀ fuel (nh : Option String) (pn : Nat) (acc : List JsonVal), maxPages - pn ≤ fuel →
      collect_hal_go hfetch maxPages nh pn acc
        = some (collect_zone_go fetch maxPages nh pn acc) := by
  intro fuel
  induction fuel with
  | zero =>
    intro nh pn acc h1
    cases nh with
    | none => rw [collect_hal_go, collect_zone_go]
    | some u =>
      rw [collect_hal_go, collect_zone_go, dif_neg (by omega), dif_neg (by omega)]
  | succ n ih =>
    intro nh pn acc h1
    cases nh with
    | none => rw [collect_hal_go, collect_zone_go]
    | some u =>
      rw [collect_hal_go, collect_zone_go]
      by_cases hlt : pn < maxPages
      · rw [dif_pos hlt, dif_pos hlt, hf u]
        dsimp only
        by_cases hemp : (hal_extract_items (fetch u)).1.isEmpty = true
        · rw [if_pos hemp, if_pos hemp]
        · rw [if_neg hemp, if_neg hemp]
          exact ih _ (pn + 1) _ (by omega)
      · rw [dif_neg hlt, dif_neg hlt]

/-- Claim C6: for every sequence of page responses the paginated
collection loop terminates (it fetches `finalPage ≤ max_pages` pages,
and the collectors are total functions); it stops exactly when the
response carries no next link, or a fetched page after the first
returns an empty item list, or the page count reaches `max_pages` (the
disjunction below, together with the fact that every loop-fetched page
other than the last was non-empty); and the returned value is the
concatenation of the item lists of the fetched pages in page order.
The final conjunct transfers the characterisation to
`collect_restaurants_hal`, whose loop is the same with a fallible
per-page fetch. -/
theorem C6_pagination (firstDoc : List (String × JsonVal))
    (fetch : String → List (String × JsonVal)) (resp : String → Nat → HttpResp)
    (maxPages : Nat) (hmax : 1 ≤ maxPages)
    (hf : ∀ u, hal_fetch_doc resp u = some (.jobj (fetch u))) :
    collect_bluer_restaurants_zone firstDoc fetch maxPages
        = ((hal_extract_items firstDoc).1 ::
            collect_zone_pages fetch maxPages (hal_extract_items firstDoc).2 1).flatten ∧
    (collect_zone_stop fetch maxPages (hal_extract_items firstDoc).2 1).finalPage
        = 1 + (collect_zone_pages fetch maxPages (hal_extract_items firstDoc).2 1).length ∧
    (collect_zone_stop fetch maxPages (hal_extract_items firstDoc).2 1).finalPage
        ≤ maxPages ∧
    ((collect_zone_stop fetch maxPages (hal_extract_items firstDoc).2 1).finalNext = none ∨
      (collect_zone_stop fetch maxPages (hal_extract_items firstDoc).2 1).finalPage
          = maxPages ∨
      (collect_zone_stop fetch maxPages (hal_extract_items firstDoc).2 1).emptyBreak
          = true) ∧
    (∀ k, k + 1 < (collect_zone_pages fetch maxPages
          (hal_extract_items firstDoc).2 1).length →
      (collect_zone_pages fetch maxPages (hal_extract_items firstDoc).2 1).get? k
          ≠ some []) ∧
    collect_restaurants_hal firstDoc resp maxPages
        = some (collect_bluer_restaurants_zone firstDoc fetch maxPages) := by
  obtain ⟨ha, hb, hc, hd⟩ := zone_stop_props fetch maxPages maxPages
    (hal_extract_items firstDoc).2 1 (by omega) hmax
  refine ⟨?_, ha, hb, hc, hd, ?_⟩
  · unfold collect_bluer_restaurants_zone
    rw [zone_go_join fetch maxPages maxPages _ 1 _ (by omega)]
    simp
  · unfold collect_restaurants_hal collect_bluer_restaurants_zone
    exact hal_zone_bridge (hal_fetch_doc resp) fetch maxPages hf maxPages _ 1 _ (by omega)

def c6doc : List (String × JsonVal) := [("_embedded", .jobj [("restaurants", .jarr [])])]

def c6fetch : String → List (String × JsonVal) := fun _ => []

def c6resp : String → Nat → HttpResp := fun _ _ => ⟨200, none, .jobj []⟩

theorem C6_pagination_witness :
    collect_bluer_restaurants_zone c6doc c6fetch 3
        = ((hal_extract_items c6doc).1 ::
            collect_zone_pages c6fetch 3 (hal_extract_items c6doc).2 1).flatten ∧
    (collect_zone_stop c6fetch 3 (hal_extract_items c6doc).2 1).finalPage
        = 1 + (collect_zone_pages c6fetch 3 (hal_extract_items c6doc).2 1).length ∧
    (collect_zone_stop c6fetch 3 (hal_extract_items c6doc).2 1).finalPage ≤ 3 ∧
    ((collect_zone_stop c6fetch 3 (hal_extract_items c6doc).2 1).finalNext = none ∨
      (collect_zone_stop c6fetch 3 (hal_extract_items c6doc).2 1).finalPage = 3 ∨
      (collect_zone_stop c6fetch 3 (hal_extract_items c6doc).2 1).emptyBreak = true) ∧
    (∀ k, k + 1 < (collect_zone_pages c6fetch 3 (hal_extract_items c6doc).2 1).length →
      (collect_zone_pages c6fetch 3 (hal_extract_items c6doc).2 1).get? k ≠ some []) ∧
    collect_restaurants_hal c6doc c6resp 3
        = some (collect_bluer_restaurants_zone c6doc c6fetch 3) :=
  C6_pagination c6doc c6fetch c6resp 3 (by omega) (by
    intro u
    unfold hal_fetch_doc hal_retry
    rw [hal_retry_go]
    simp [c6resp, c6fetch])

/-! ## write_geojson (build_map_list.py lines 1183-1216) -/

/-- The `properties` dict built for each place (lines 1191-1203). -/
structure GeoProps where
  name : String
  source : String
  category : Option String
  cuisine : Option String
  price : Option String
  phone : Option String
  url : Option String
  address : Option String
  year : Option String
  kakao_id : Option String
  kakao_url : Option String
deriving Repr, DecidableEq

def geo_props (p : Place) : GeoProps :=
  ⟨p.name, p.source, p.category, p.cuisine, p.price, p.phone, p.url, p.address,
    p.year, p.kakao_id, p.kakao_url⟩

/-- A GeoJSON feature: point coordinates `[longitude, latitude]` plus
the properties.  The coordinate pair is total by construction — the
embedding cannot even express a feature with a null coordinate. -/
structure GeoFeature where
  coordinates : Rat × Rat
  properties : GeoProps
deriving Repr, DecidableEq

/-- The `features` array built by `write_geojson`: the loop appends one
feature per place, only when both coordinates are present. -/
def write_geojson_features (places : List Place) : List GeoFeature :=
  places.foldl
    (fun acc p =>
      match p.latitude, p.longitude with
      | some la, some lo => acc ++ [⟨(lo, la), geo_props p⟩]
      | _, _ => acc)
    []

theorem geojson_foldl_filterMap (places : List Place) :
    ∀ acc : List GeoFeature,
      places.foldl
        (fun acc p =>
          match p.latitude, p.longitude with
          | some la, some lo => acc ++ [⟨(lo, la), geo_props p⟩]
          | _, _ => acc)
        acc
      = acc ++ places.filterMap (fun p =>
          match p.latitude, p.longitude with
          | some la, some lo => some ⟨(lo, la), geo_props p⟩
          | _, _ => none) := by
  induction places with
  | nil => intro acc; simp
  | cons p rest ih =>
    intro acc
    simp only [List.foldl_cons, List.filterMap_cons]
    cases hla : p.latitude with
    | none => rw [ih]
    | some la =>
      cases hlo : p.longitude with
      | none => rw [ih]
      | some lo =>
        rw [ih]
        simp

/-- Claim C8: the FeatureCollection written by `write_geojson` contains
a feature exactly for the places whose latitude and longitude are both
present (every place lacking either coordinate is excluded), each
feature carrying that place's coordinates as `[longitude, latitude]`;
no feature with a null coordinate can occur (the coordinate pair of
`GeoFeature` is total). -/
theorem C8_geojson_features (places : List Place) :
    write_geojson_features places
      = places.filterMap (fun p =>
          match p.latitude, p.longitude with
          | some la, some lo => some ⟨(lo, la), geo_props p⟩
          | _, _ => none) := by
  unfold write_geojson_features
  rw [geojson_foldl_filterMap]
  simp

/-! ## bluer_item_to_place (build_map_list.py lines 1084-1128)

The function reads a loosely-typed JSON item.  In the embedding a
`none` result marks the inputs on which the Python code would raise
(`.get` on a truthy non-dict sub-value) together with a few unmodelled
typings: string-valued fields are required to be JSON strings (Python
would store a non-string value unchanged in the dataclass) and
`str(year)` is modelled for strings and integers only.  Every claim is
conditioned on the embedding succeeding, so this only shrinks the
domain, never changes a produced `Place`. -/

/-- `item.get(k) or {}`: missing/falsy becomes the empty dict; a truthy
non-dict would raise on the subsequent `.get` (`none`). -/
def pyOrDict (o : Option JsonVal) : Option (List (String × JsonVal)) :=
  match o with
  | none => some []
  | some v =>
    if jTruthy v then
      match v with
      | .jobj kvs => some kvs
      | _ => none
    else some []

/-- Python `str(v)` for the JSON values the pipeline stores in string
fields (strings and integers; other types are unmodelled). -/
def pyStrOfJ : JsonVal → Option String
  | .jstr s => some s
  | .jint n => some (toString n)
  | _ => none

/-- `float(v) if isinstance(v, (int, float)) else None` — note that
Python `bool` is an `int` subtype. -/
def pyFloatOfJ (o : Option JsonVal) : Option Rat :=
  match o with
  | some (.jint n) => some (n : Rat)
  | some (.jnum q) => some q
  | some (.jbool b) => some (if b then 1 else 0)
  | _ => none

/-- `header.get("nameKR") or header.get("nameEN") or "Unknown"` — must
be a string for the embedding. -/
def bluerName (header : List (String × JsonVal)) : Option String :=
  match pyOrJ (pyOrJ (jget header "nameKR") (jget header "nameEN"))
      (some (.jstr "Unknown")) with
  | some (.jstr s) => some s
  | _ => none

/-- `str(year) if year else None` for `year = header.get("bookYear")`. -/
def bluerYear (header : List (String × JsonVal)) : Option (Option String) :=
  match jget header "bookYear" with
  | none => some none
  | some v => if jTruthy v then (pyStrOfJ v).map some else some none

/-- `juso.get("engAddr") or juso.get("roadAddrPart1")`. -/
def bluerAddr0 (juso : List (String × JsonVal)) : Option (Option String) :=
  match pyOrJ (jget juso "engAddr") (jget juso "roadAddrPart1") with
  | none => some none
  | some (.jstr s) => some (some s)
  | some _ => none

/-- The `roadAddrPart2` suffix rule of `bluer_item_to_place`. -/
def bluerAddr (juso : List (String × JsonVal)) (address : Option String) :
    Option (Option String) :=
  match jget juso "roadAddrPart2", address with
  | some p2, some a =>
    if jTruthy p2 && !(a == "") then
      match jget juso "roadAddrPart1" with
      | some (.jstr r1) =>
        if a == r1 then
          match pyStrOfJ p2 with
          | some s2 => some (some (a ++ " " ++ s2))
          | none => none
        else some (some a)
      | _ => some (some a)
    else some (some a)
  | _, a => some a

/-- `juso.get("siNm") or ""`. -/
def bluerSiNm (juso : List (String × JsonVal)) : Option String :=
  match pyOrJ (jget juso "siNm") (some (.jstr "")) with
  | some (.jstr s) => some s
  | _ => none

/-- `header.get("ribbonType")` stored raw into the `category` field. -/
def bluerCategory (header : List (String × JsonVal)) : Option (Option String) :=
  match jget header "ribbonType" with
  | none => some none
  | some (.jstr s) => some (some s)
  | some _ => none

/-- `item.get("foodTypes") or []`, which must be a list if truthy. -/
def bluerFoodTypes (item : List (String × JsonVal)) : Option (List JsonVal) :=
  match jget item "foodTypes" with
  | none => some []
  | some v =>
    if jTruthy v then
      match v with
      | .jarr xs => some xs
      | _ => none
    else some []

/-- `(d.get(k) or "").strip() or None` for the `phone`/`website`
fields. -/
def bluerStrippedField (d : List (String × JsonVal)) (k : String) :
    Option (Option String) :=
  match pyOrJ (jget d k) (some (.jstr "")) with
  | some (.jstr s) => some (let t := pyStrip s; if t == "" then none else some t)
  | _ => none

def bluer_item_to_place (item : List (String × JsonVal)) (captured_at : String) :
    Option Place := do
  let header ← pyOrDict (List.lookup "headerInfo" item)
  let juso ← pyOrDict (List.lookup "juso" item)
  let gps ← pyOrDict (List.lookup "gps" item)
  let dflt ← pyOrDict (List.lookup "defaultInfo" item)
  let name ← bluerName header
  let year ← bluerYear header
  let address ← bluerAddr0 juso
  let address ← bluerAddr juso address
  let siNm ← bluerSiNm juso
  let city : Option String := if pyStartsWith siNm "서울" then some "Seoul" else none
  let category ← bluerCategory header
  let foodTypes ← bluerFoodTypes item
  let cuisineJoined := String.intercalate ", "
    (foodTypes.filterMap fun x => match x with | .jstr s => some s | _ => none)
  let cuisine : Option String := if cuisineJoined == "" then none else some cuisineJoined
  let phone ← bluerStrippedField dflt "phone"
  let url ← bluerStrippedField dflt "website"
  let latitude := pyFloatOfJ (jget gps "latitude")
  let longitude := pyFloatOfJ (jget gps "longitude")
  some
    { source := "blueribbon", name := name, address := address, city := city,
      country := some "South Korea", category := category, cuisine := cuisine,
      price := none, phone := phone, url := url, year := year,
      latitude := latitude, longitude := longitude, captured_at := captured_at }

/-- The gps sub-dict as `bluer_item_to_place` reads it, for stating the
coordinate characterisation. -/
def bluerGpsField (item : List (String × JsonVal)) (k : String) : Option JsonVal :=
  match pyOrDict (List.lookup "gps" item) with
  | some g => jget g k
  | none => none

/-- Whether `float(v)` would be taken by the `isinstance(v, (int,
float))` guard. -/
def jIsNumeric : Option JsonVal → Bool
  | some (.jint _) => true
  | some (.jnum _) => true
  | some (.jbool _) => true
  | _ => false

/-! ## load_blueribbon_from_csv (build_map_list.py lines 1157-1181)

A pandas cell is NaN (`na`), a string, or a number.  `str()` of a
numeric cell and `float()` of a string cell are unmodelled (`none`
result; the latter may raise in Python); both only shrink the domain of
the embedding. -/

inductive Cell where
  | na
  | cs (s : String)
  | cn (q : Rat)
deriving Repr, DecidableEq

/-- `str(row.get(k)).strip() if pd.notna(row.get(k)) else None`. -/
def cellStrField (row : List (String × Cell)) (k : String) : Option (Option String) :=
  match List.lookup k row with
  | some (.cs s) => some (some (pyStrip s))
  | some (.cn _) => none
  | _ => some none

/-- `float(row.get(k)) if pd.notna(row.get(k)) else None`. -/
def cellNumField (row : List (String × Cell)) (k : String) : Option (Option Rat) :=
  match List.lookup k row with
  | some (.cn q) => some (some q)
  | some (.cs _) => none
  | _ => some none

/-- `str(row.get("name", "")).strip()` before the strip: a missing
column is `""` and a NaN cell stringifies to `"nan"`. -/
def cellNameField (row : List (String × Cell)) : Option String :=
  match List.lookup "name" row with
  | none => some ""
  | some .na => some "nan"
  | some (.cs s) => some s
  | some (.cn _) => none

def load_blueribbon_row (row : List (String × Cell)) (captured_at : String) :
    Option Place := do
  let name ← cellNameField row
  let address ← cellStrField row "address"
  let city ← cellStrField row "city"
  let country0 ← cellStrField row "country"
  let country := match country0 with
    | some c => some c
    | none => some "South Korea"
  let category ← cellStrField row "category"
  let cuisine ← cellStrField row "cuisine"
  let price ← cellStrField row "price"
  let phone ← cellStrField row "phone"
  let url ← cellStrField row "url"
  let year ← cellStrField row "year"
  let latitude ← cellNumField row "latitude"
  let longitude ← cellNumField row "longitude"
  some
    { source := "blueribbon", name := pyStrip name, address := address, city := city,
      country := country, category := category, cuisine := cuisine, price := price,
      phone := phone, url := url, year := year, latitude := latitude,
      longitude := longitude, captured_at := captured_at }

def load_blueribbon_from_csv (rows : List (List (String × Cell)))
    (captured_at : String) : Option (List Place) :=
  rows.mapM (fun row => load_blueribbon_row row captured_at)

def cellIsNum : Option Cell → Bool
  | some (.cn _) => true
  | _ => false

theorem pyFloat_isSome (o : Option JsonVal) :
    (pyFloatOfJ o).isSome = jIsNumeric o := by
  cases o with
  | none => rfl
  | some v => cases v <;> rfl

theorem cellNumField_isSome (row : List (String × Cell)) (k : String) (v : Option Rat)
    (h : cellNumField row k = some v) : v.isSome = cellIsNum (List.lookup k row) := by
  unfold cellNumField at h
  unfold cellIsNum
  cases hl : List.lookup k row with
  | none =>
    rw [hl] at h
    cases h
    rfl
  | some c =>
    rw [hl] at h
    cases c with
    | na => cases h; rfl
    | cs s => cases h
    | cn q => cases h; rfl

/-- Peel one `Option` bind from a successful `do` chain. -/
theorem optBind_some {α β : Type} {x : Option α} {f : α → Option β} {b : β}
    (h : (do let a ← x; f a) = some b) : ∃ a, x = some a ∧ f a = some b := by
  cases x with
  | none => exact Option.noConfusion h
  | some a => exact ⟨a, rfl, h⟩

/-- The item of the C7 counterexample: its `gps` dict carries a numeric
latitude but no longitude. -/
def c7item : List (String × JsonVal) := [("gps", .jobj [("latitude", .jint 37)])]

/-- Claim C7 as stated is false: `bluer_item_to_place` converts the two
coordinates independently, so an item whose `gps` dict has a numeric
`latitude` but no `longitude` yields a `Place` with exactly one of the
two coordinates set. -/
theorem C7_counterexample :
    (bluer_item_to_place c7item "t").map
        (fun p => (p.latitude.isSome, p.longitude.isSome))
      = some (true, false) := by rfl

/-- Claim C7 amended: `bluer_item_to_place` and `load_blueribbon_from_csv`
set each coordinate independently of the other — the produced `Place`
has a coordinate present exactly when the input supplies that
coordinate numerically.  The both-or-neither invariant therefore holds
exactly for inputs that supply both coordinates or neither, and an
input supplying exactly one yields a `Place` with exactly one. -/
theorem C7_coords_amended (item : List (String × JsonVal)) (t : String) (pl : Place)
    (row : List (String × Cell)) (t2 : String) (pl2 : Place)
    (h1 : bluer_item_to_place item t = some pl)
    (h2 : load_blueribbon_row row t2 = some pl2) :
    (pl.latitude.isSome = jIsNumeric (bluerGpsField item "latitude") ∧
      pl.longitude.isSome = jIsNumeric (bluerGpsField item "longitude")) ∧
    (pl2.latitude.isSome = cellIsNum (List.lookup "latitude" row) ∧
      pl2.longitude.isSome = cellIsNum (List.lookup "longitude" row)) := by
  constructor
  · unfold bluer_item_to_place at h1
    obtain ⟨header, hh, h1⟩ := optBind_some h1
    obtain ⟨juso, hj, h1⟩ := optBind_some h1
    obtain ⟨gps, hg, h1⟩ := optBind_some h1
    obtain ⟨dflt, hd, h1⟩ := optBind_some h1
    obtain ⟨name, hn, h1⟩ := optBind_some h1
    obtain ⟨year, hy, h1⟩ := optBind_some h1
    obtain ⟨addr0, ha0, h1⟩ := optBind_some h1
    obtain ⟨addr, ha, h1⟩ := optBind_some h1
    obtain ⟨siNm, hs, h1⟩ := optBind_some h1
    obtain ⟨cat, hc, h1⟩ := optBind_some h1
    obtain ⟨ft, hft, h1⟩ := optBind_some h1
    obtain ⟨phone, hp, h1⟩ := optBind_some h1
    obtain ⟨url, hu, h1⟩ := optBind_some h1
    have hpl := Option.some_inj.mp h1
    have hgf : ∀ k, bluerGpsField item k = jget gps k := by
      intro k
      unfold bluerGpsField
      rw [hg]
    rw [hgf, hgf, ← hpl]
    exact ⟨pyFloat_isSome _, pyFloat_isSome _⟩
  · unfold load_blueribbon_row at h2
    obtain ⟨name, hn, h2⟩ := optBind_some h2
    obtain ⟨addr, ha, h2⟩ := optBind_some h2
    obtain ⟨city, hc, h2⟩ := optBind_some h2
    obtain ⟨c0, hc0, h2⟩ := optBind_some h2
    obtain ⟨cat, hcat, h2⟩ := optBind_some h2
    obtain ⟨cui, hcui, h2⟩ := optBind_some h2
    obtain ⟨pr, hpr, h2⟩ := optBind_some h2
    obtain ⟨ph, hph, h2⟩ := optBind_some h2
    obtain ⟨url, hu, h2⟩ := optBind_some h2
    obtain ⟨yr, hyr, h2⟩ := optBind_some h2
    obtain ⟨la, hla, h2⟩ := optBind_some h2
    obtain ⟨lo, hlo, h2⟩ := optBind_some h2
    have hpl := Option.some_inj.mp h2
    rw [← hpl]
    exact ⟨cellNumField_isSome row "latitude" la hla,
      cellNumField_isSome row "longitude" lo hlo⟩

def c7rowW : List (String × Cell) := [("latitude", .cn 1)]

def c7plW : Place :=
  { source := "blueribbon", name := "Unknown", address := none, city := none,
    country := some "South Korea", category := none, cuisine := none, price := none,
    phone := none, url := none, year := none, latitude := none, longitude := none,
    captured_at := "t" }

def c7pl2W : Place :=
  { source := "blueribbon", name := "", address := none, city := none,
    country := some "South Korea", category := none, cuisine := none, price := none,
    phone := none, url := none, year := none, latitude := some 1, longitude := none,
    captured_at := "t" }

theorem C7_coords_amended_witness :
    ((c7plW.latitude.isSome = jIsNumeric (bluerGpsField [] "latitude") ∧
      c7plW.longitude.isSome = jIsNumeric (bluerGpsField [] "longitude")) ∧
    (c7pl2W.latitude.isSome = cellIsNum (List.lookup "latitude" c7rowW) ∧
      c7pl2W.longitude.isSome = cellIsNum (List.lookup "longitude" c7rowW))) :=
  C7_coords_amended [] "t" c7plW c7rowW "t" c7pl2W (by rfl) (by rfl)

/-! ## enrich_with_kakao (build_map_list.py lines 62-252)

The HTTP keyword search is modelled by a server oracle mapping the
(truncated) query string to either a document list or an HTTP error
status; the per-place call count tracks the number of HTTP requests
issued.  The response-JSON unpacking of `kakao_local_keyword_search`
(lines 113-115) is absorbed into the oracle. -/

/-- Python `\w` for the characters these inputs use: ASCII
alphanumerics, underscore, and Hangul syllables. -/
def pyIsWordChar (c : Char) : Bool :=
  c.isAlphanum || c == '_' || (0xAC00 ≤ c.toNat && c.toNat ≤ 0xD7A3)

def isHangulSyl (c : Char) : Bool :=
  0xAC00 ≤ c.toNat && c.toNat ≤ 0xD7A3

/-- A `\b` word boundary between the previous character and the rest of
the input. -/
def boundaryOk : List Char → Bool
  | [] => true
  | c :: _ => !pyIsWordChar c

/-- `re.search(r"([A-Za-z]+-gu)\b", addr)` (build_map_list.py line 168):
scan for the leftmost `-gu` preceded by letters and followed by a word
boundary; the match is the backward-maximal letter run plus `-gu`.  The
first argument accumulates the current letter run in reverse. -/
def guScanEn : List Char → List Char → Option String
  | run, '-' :: 'g' :: 'u' :: rest =>
    if !run.isEmpty && boundaryOk rest then
      some (String.mk (run.reverse ++ ['-', 'g', 'u']))
    else
      -- no match here: rescanning from the `g` with an empty run would
      -- deterministically accumulate the letters `g`, `u` and continue
      guScanEn ['u', 'g'] rest
  | run, c :: rest =>
    if c.isAlpha then guScanEn (c :: run) rest else guScanEn [] rest
  | _, [] => none

/-- `re.search(r"([가-힣]+구)\b", addr)` (build_map_list.py line 171):
the match is a Hangul run of length at least two ending in `구` followed
by a word boundary. -/
def guScanKo : List Char → List Char → Option String
  | run, c :: rest =>
    if c == '구' && !run.isEmpty && boundaryOk rest then
      some (String.mk ((c :: run).reverse))
    else if isHangulSyl c then guScanKo (c :: run) rest
    else guScanKo [] rest
  | _, [] => none

/-- `_extract_gu` (build_map_list.py lines 164-174). -/
def extract_gu (addr : Option String) : Option String :=
  match addr with
  | none => none
  | some a =>
    if a == "" then none
    else
      match guScanEn [] a.toList with
      | some g => some g
      | none => guScanKo [] a.toList

/-- Python `str.rstrip()`. -/
def pyRstrip (s : String) : String :=
  String.mk (s.toList.reverse.dropWhile Char.isWhitespace).reverse

/-- Split into maximal non-whitespace words (accumulator in reverse). -/
def wsWordsAux : List Char → List Char → List String
  | acc, [] => if acc.isEmpty then [] else [String.mk acc.reverse]
  | acc, c :: cs =>
    if c.isWhitespace then
      (if acc.isEmpty then [] else [String.mk acc.reverse]) ++ wsWordsAux [] cs
    else wsWordsAux (c :: acc) cs

/-- `_short_addr` (build_map_list.py lines 176-182): the two `re.sub`
passes plus `strip()` amount to mapping `,()` to spaces, collapsing
whitespace runs to single spaces and stripping; then the first 40
characters, right-stripped. -/
def short_addr (addr : Option String) (limit : Nat := 40) : Option String :=
  match addr with
  | none => none
  | some s =>
    if s == "" then none
    else
      let mapped := s.toList.map
        (fun c => if c == ',' || c == '(' || c == ')' then ' ' else c)
      let a := String.intercalate " " (wsWordsAux [] mapped)
      if a == "" then none
      else some (pyRstrip (String.mk (a.toList.take limit)))

/-- The query candidates built per place (build_map_list.py lines
200-206). -/
def kakao_candidates (p : Place) : List String :=
  let name := pyStrip p.name
  let gu := extract_gu p.address
  let addrShort := short_addr p.address
  (if !(name == "") then [name] else []) ++
  (match gu with
   | some g => if !(name == "") && !(g == "") then [name ++ " " ++ g] else []
   | none => []) ++
  (match addrShort with
   | some a2 => if !(name == "") && !(a2 == "") then [name ++ " " ++ a2] else []
   | none => [])

/-- A Kakao Local keyword-search document, with the fields the scorer
and the enrichment read (the API returns them as strings). -/
structure KakaoDoc where
  place_name : Option String := none
  road_address_name : Option String := none
  address_name : Option String := none
  phone : Option String := none
  id : Option String := none
  place_url : Option String := none
deriving Repr, DecidableEq

/-- `(x or "").strip().lower()` (ASCII lowercasing; Korean has no
case). -/
def lowerTrim (s : String) : String :=
  String.mk ((pyStrip s).toList.map Char.toLower)

def charsContains (hay needle : List Char) : Bool :=
  match hay with
  | [] => needle.isEmpty
  | c :: t => List.isPrefixOf needle (c :: t) || charsContains t needle

/-- Python `needle in hay` on strings. -/
def strContains (hay needle : String) : Bool :=
  charsContains hay.toList needle.toList

/-- The `score` closure of `choose_best_kakao_doc` (build_map_list.py
lines 131-154), with `n`/`a` the lowered-stripped name and address. -/
def kakaoScore (n a : String) (d : KakaoDoc) : Int :=
  let pn := lowerTrim (d.place_name.getD "")
  let ra := lowerTrim (d.road_address_name.getD "")
  let aa := lowerTrim (d.address_name.getD "")
  let s1 : Int :=
    if pn == n then 50
    else if !(n == "") && !(pn == "") && (strContains pn n || strContains n pn) then 25
    else 0
  let addrScore : String → Int := fun cand =>
    if !(a == "") && !(cand == "") then
      if cand == a then 40
      else if strContains cand a || strContains a cand then 15
      else 0
    else 0
  let s3 : Int := if !(pyStrip (d.phone.getD "") == "") then 2 else 0
  s1 + addrScore ra + addrScore aa + s3

/-- `choose_best_kakao_doc` (build_map_list.py lines 118-156); Python's
`max(docs, key=score)` keeps the first of equal-scoring documents. -/
def choose_best_kakao_doc (docs : List KakaoDoc) (name : String)
    (address : Option String) : Option KakaoDoc :=
  match docs with
  | [] => none
  | d0 :: rest =>
    let n := lowerTrim name
    let a := lowerTrim (address.getD "")
    some (rest.foldl
      (fun best d => if kakaoScore n a d > kakaoScore n a best then d else best) d0)

/-- The outcome of one simulated keyword-search HTTP exchange:
documents, or an `HTTPError` with `getattr(e.response, "status_code",
None)`. -/
inductive KakaoCallResult where
  | ok (docs : List KakaoDoc)
  | httpError (status : Option Nat)
deriving Repr, DecidableEq

/-- `kakao_local_keyword_search` (build_map_list.py lines 65-115): an
empty stripped query short-circuits without HTTP; long queries are
truncated to 80 characters and right-stripped before the GET.  Returns
the oracle's answer and the number of HTTP requests issued (0 or 1). -/
def kakao_search (server : String → KakaoCallResult) (query : String) :
    KakaoCallResult × Nat :=
  let q := pyStrip query
  if q == "" then (.ok [], 0)
  else
    let q2 := if 80 < q.length then pyRstrip (String.mk (q.toList.take 80)) else q
    (server q2, 1)

/-- The `for q in candidates` loop of `enrich_with_kakao` (lines
210-238): 400 and 429 move on to the next candidate, any other HTTP
error breaks (`hard_fail`), a scoring document breaks with it.  Returns
the chosen document and the total number of HTTP requests issued. -/
def kakao_try_candidates (server : String → KakaoCallResult) (name : String)
    (address : Option String) : List String → Option KakaoDoc × Nat
  | [] => (none, 0)
  | q :: rest =>
    let rc := kakao_search server q
    match rc.1 with
    | .httpError st =>
      if st == some 400 || st == some 429 then
        let r := kakao_try_candidates server name address rest
        (r.1, rc.2 + r.2)
      else (none, rc.2)
    | .ok docs =>
      match choose_best_kakao_doc docs name address with
      | some d => (some d, rc.2)
      | none =>
        let r := kakao_try_candidates server name address rest
        (r.1, rc.2 + r.2)

/-- `str(x or "") or None` for the chosen document's fields (lines
244-245). -/
def pyStrOrNone : Option String → Option String
  | some s => if s == "" then none else some s
  | none => none

/-- The per-place body of the enrichment loop (lines 190-249): skip
places that already carry a Kakao id or url, otherwise try the query
candidates and, if a document was chosen, rebuild the place from
`asdict(p)` with only `kakao_id`/`kakao_url` overridden. -/
def enrich_place (server : String → KakaoCallResult) (p : Place) : Place × Nat :=
  if pyTruthyStr p.kakao_id || pyTruthyStr p.kakao_url then (p, 0)
  else
    let r := kakao_try_candidates server p.name p.address (kakao_candidates p)
    match r with
    | (some d, n) =>
      ({ p with kakao_id := pyStrOrNone d.id, kakao_url := pyStrOrNone d.place_url }, n)
    | (none, n) => (p, n)

/-- `enrich_with_kakao(places)` (lines 158-252): without an API key the
input is returned unchanged; with one, each place is processed in order
and appended to the output. -/
def enrich_with_kakao (hasKey : Bool) (server : String → KakaoCallResult)
    (places : List Place) : List Place :=
  if hasKey then places.map (fun p => (enrich_place server p).1) else places

/-! ## Claims about the enrichment pass -/

/-- Claim C9: the enrichment stage never issues an external
places-API call for a place it already holds a result for: whenever a
place is pre-seeded with a Kakao id or url, its processing issues zero
HTTP requests and returns the place unchanged (lines 190-193 of
build_map_list.py); over a whole run, such a place contributes nothing
to the call count. -/
theorem C9_preseed_no_calls (server : String → KakaoCallResult) (p : Place)
    (h : (pyTruthyStr p.kakao_id || pyTruthyStr p.kakao_url) = true) :
    enrich_place server p = (p, 0) := by
  unfold enrich_place
  rw [if_pos h]

def c9place : Place :=
  { source := "michelin", name := "Alpha", address := some "Seoul", city := none,
    country := none, category := none, cuisine := none, price := none, phone := none,
    url := none, year := none, latitude := none, longitude := none,
    captured_at := "t", kakao_id := some "k1", kakao_url := none }

theorem C9_preseed_no_calls_witness :
    enrich_place (fun _ => .httpError (some 500)) c9place = (c9place, 0) :=
  C9_preseed_no_calls (fun _ => .httpError (some 500)) c9place (by decide)

theorem enrich_place_frame (server : String → KakaoCallResult) (p : Place) :
    (enrich_place server p).1 =
      { p with kakao_id := (enrich_place server p).1.kakao_id,
               kakao_url := (enrich_place server p).1.kakao_url } ∧
    ((pyTruthyStr p.kakao_id || pyTruthyStr p.kakao_url) = true →
      (enrich_place server p).1 = p) := by
  by_cases h : (pyTruthyStr p.kakao_id || pyTruthyStr p.kakao_url) = true
  · unfold enrich_place
    rw [if_pos h]
    exact ⟨rfl, fun _ => rfl⟩
  · unfold enrich_place
    rw [if_neg h]
    refine ⟨?_, fun hcon => absurd hcon h⟩
    rcases hr : kakao_try_candidates server p.name p.address (kakao_candidates p)
      with ⟨b, n⟩
    cases b with
    | none => rfl
    | some d => rfl

/-- Claim C10: the enrichment pass returns a list of the same length in
the same order, each output record differing from its input only in the
`kakao_id`/`kakao_url` fields (so `captured_at`, the coordinates and
every other populated field are unchanged — the structure-update
equation pins every other field to the input's), and a record whose
Kakao fields were already populated is returned entirely unchanged. -/
theorem C10_enrich_frame (hasKey : Bool) (server : String → KakaoCallResult)
    (places : List Place) :
    (enrich_with_kakao hasKey server places).length = places.length ∧
    ∀ i (h1 : i < (enrich_with_kakao hasKey server places).length)
      (h2 : i < places.length),
      ((enrich_with_kakao hasKey server places).get ⟨i, h1⟩ =
        { places.get ⟨i, h2⟩ with
          kakao_id := ((enrich_with_kakao hasKey server places).get ⟨i, h1⟩).kakao_id
          kakao_url := ((enrich_with_kakao hasKey server places).get ⟨i, h1⟩).kakao_url }) ∧
      ((pyTruthyStr (places.get ⟨i, h2⟩).kakao_id
          || pyTruthyStr (places.get ⟨i, h2⟩).kakao_url) = true →
        (enrich_with_kakao hasKey server places).get ⟨i, h1⟩ = places.get ⟨i, h2⟩) := by
  cases hasKey with
  | false =>
    unfold enrich_with_kakao
    exact ⟨rfl, fun i h1 h2 => ⟨rfl, fun _ => rfl⟩⟩
  | true =>
    refine ⟨List.length_map places _, ?_⟩
    intro i h1 h2
    have hget : (enrich_with_kakao true server places).get ⟨i, h1⟩
        = (enrich_place server (places.get ⟨i, h2⟩)).1 := by
      have h1' : i < (places.map (fun p => (enrich_place server p).1)).length := h1
      show (places.map (fun p => (enrich_place server p).1)).get ⟨i, h1'⟩
          = (enrich_place server (places.get ⟨i, h2⟩)).1
      simp [List.get_eq_getElem, List.getElem_map]
    rw [hget]
    exact enrich_place_frame server (places.get ⟨i, h2⟩)

def c10place : Place :=
  { source := "blueribbon", name := "Beta", address := none, city := none,
    country := none, category := none, cuisine := none, price := none, phone := none,
    url := none, year := none, latitude := some 3, longitude := some 4,
    captured_at := "t0", kakao_id := none, kakao_url := some "http://k" }

theorem C10_enrich_frame_witness :
    (enrich_with_kakao true (fun _ => .ok []) [c10place]).length = [c10place].length ∧
    (((enrich_with_kakao true (fun _ => .ok []) [c10place]).get
        ⟨0, by decide⟩ =
      { [c10place].get ⟨0, by decide⟩ with
        kakao_id := ((enrich_with_kakao true (fun _ => .ok [])
          [c10place]).get ⟨0, by decide⟩).kakao_id
        kakao_url := ((enrich_with_kakao true (fun _ => .ok [])
          [c10place]).get ⟨0, by decide⟩).kakao_url }) ∧
    ((pyTruthyStr ([c10place].get ⟨0, by decide⟩).kakao_id
        || pyTruthyStr ([c10place].get ⟨0, by decide⟩).kakao_url) = true →
      (enrich_with_kakao true (fun _ => .ok []) [c10place]).get ⟨0, by decide⟩
        = [c10place].get ⟨0, by decide⟩)) :=
  ⟨(C10_enrich_frame true (fun _ => .ok []) [c10place]).1,
    (C10_enrich_frame true (fun _ => .ok []) [c10place]).2 0 (by decide) (by decide)⟩
